import Mathlib

set_option maxRecDepth 100000

/-!
Shallow embedding of the onectra-wallet-tracker ingestion pipeline
(`HeliusWebSocketBackend` and `TransactionFilters`) and proofs about it.

Modelling conventions:
* JavaScript strings are Lean `String`s; `undefined`/`null` string fields are
  `Option String` with `none` for the missing value; JS truthiness of a string
  is `s ≠ ""`.
* JS `Map` is an association list with overwrite-on-set semantics.
* JS numbers are modelled as exact rationals: a `QR` is an `Int` numerator
  over an `ℕ` denominator (kept positive by construction, never normalized,
  compared by cross-multiplication).  Where the formatting pipeline's
  behaviour depends on IEEE-754 binary64 rounding (`formatTokenAmount` and
  its bucket scheme), the double semantics is modelled explicitly: `JsNum`
  carries the exact value of a binary64 number and every conversion and
  arithmetic step rounds to nearest, ties to even (with subnormals and
  overflow to `Infinity`).  The extractor's SOL-amount arithmetic keeps
  exact rationals; all values reaching it in the verified statements are
  exactly representable.
* `BigInt` arithmetic is `Int` arithmetic (it is exact in the source too).
* Timestamps (`Date.now()`) are explicit `ℕ` parameters in milliseconds.
-/

namespace Onectra

/-- Substring test on character lists, the semantics of JS
`String.prototype.includes` (empty needle is always found). -/
def listHasSub : List Char → List Char → Bool
  | [], needle => needle.isEmpty
  | c :: t, needle => needle.isPrefixOf (c :: t) || listHasSub t needle

/-- JS `hay.includes(needle)` for strings. -/
def jsIncludes (hay needle : String) : Bool :=
  listHasSub hay.toList needle.toList

/-- JS `s.trim()`: strip leading and trailing whitespace.  Implemented on the
character list so that it evaluates inside the kernel. -/
def jsTrim (s : String) : String :=
  ⟨((s.toList.dropWhile Char.isWhitespace).reverse.dropWhile Char.isWhitespace).reverse⟩

/-- JS `s.toUpperCase()` restricted to ASCII (all strings it is compared
against in the source are ASCII). -/
def jsToUpper (s : String) : String :=
  ⟨s.toList.map Char.toUpper⟩

/-- JS string truthiness for an optional string field: `undefined`, `null`
and the empty string are falsy. -/
def truthyStr (o : Option String) : Bool :=
  match o with
  | some s => s != ""
  | none => false

/-- `this.blacklistedTokens` from the `TransactionFilters` constructor. -/
def blacklistedTokens : List String :=
  ["Unknown", "N/A", "", "?", "-", "UNK", "UNKNOWN",
   "SOL", "WSOL", "wSOL", "cwSOL", "cSOL", "stSOL", "mSOL", "jitoSOL", "bSOL"]

/-- `this.blacklistedWalletNames` from the `TransactionFilters` constructor. -/
def blacklistedWalletNames : List String :=
  ["Activity", "Activity...", "Activity Detected", "Transaction Detected",
   "Account Update", "Account Change", "Unknown", "Fallback", "Generic Transaction"]

/-- `this.blacklistedTransactionTypes` from the `TransactionFilters` constructor. -/
def blacklistedTransactionTypes : List String :=
  ["fallback", "account_change", "system_transaction", "generic_activity"]

/-- `TransactionFilters.isTokenBlacklisted`: falsy token ⇒ blacklisted;
otherwise normalize (trim + upper-case) and compare against the upper-cased
blacklist entries. -/
def isTokenBlacklisted (token : Option String) : Bool :=
  match token with
  | none => true
  | some t =>
    if t = "" then true
    else blacklistedTokens.any (fun b => jsToUpper (jsTrim t) == jsToUpper b)

/-- `TransactionFilters.isWalletNameBlacklisted`: falsy name ⇒ not blacklisted;
otherwise trim and test substring containment of any blacklist entry. -/
def isWalletNameBlacklisted (walletName : Option String) : Bool :=
  match walletName with
  | none => false
  | some w =>
    if w = "" then false
    else blacklistedWalletNames.any (fun b => jsIncludes (jsTrim w) b)

/-- `TransactionFilters.isTransactionTypeBlacklisted`. -/
def isTransactionTypeBlacklisted (ty : Option String) : Bool :=
  match ty with
  | none => false
  | some t => if t = "" then false else blacklistedTransactionTypes.contains t

/-- `TransactionFilters.hasValidTokenLength`: trimmed token length at least 2. -/
def hasValidTokenLength (token : Option String) : Bool :=
  match token with
  | none => false
  | some t => if t = "" then false else decide (2 ≤ (jsTrim t).length)

/-- Exact rational arithmetic for JS numbers: an unnormalized fraction with
an `Int` numerator and an `ℕ` denominator.  Every value constructed by the
model has a positive denominator; `le`/`lt` compare by cross-multiplication,
which is correct under that invariant.  Chosen over Mathlib's `ℚ` so that all
operations reduce inside the kernel. -/
structure QR where
  num : Int
  den : ℕ
deriving DecidableEq

/-- Embed an integer. -/
def QR.ofInt (n : Int) : QR := ⟨n, 1⟩

/-- Addition: `a/b + c/d = (a*d + c*b) / (b*d)`. -/
def QR.add (a b : QR) : QR :=
  ⟨a.num * (b.den : Int) + b.num * (a.den : Int), a.den * b.den⟩

/-- Multiplication. -/
def QR.mul (a b : QR) : QR := ⟨a.num * b.num, a.den * b.den⟩

/-- Division (used only with nonzero divisors; keeps the denominator in `ℕ`
by moving the divisor's sign to the numerator). -/
def QR.div (a b : QR) : QR :=
  if b.num < 0 then ⟨-(a.num * (b.den : Int)), a.den * b.num.natAbs⟩
  else ⟨a.num * (b.den : Int), a.den * b.num.natAbs⟩

/-- Negation. -/
def QR.neg (a : QR) : QR := ⟨-a.num, a.den⟩

/-- `Math.abs`. -/
def QR.absQ (a : QR) : QR := ⟨|a.num|, a.den⟩

/-- `a <= b` by cross-multiplication (positive denominators). -/
def QR.le (a b : QR) : Bool :=
  decide (a.num * (b.den : Int) ≤ b.num * (a.den : Int))

/-- `a < b` by cross-multiplication (positive denominators). -/
def QR.lt (a b : QR) : Bool :=
  decide (a.num * (b.den : Int) < b.num * (a.den : Int))

/-- `a === 0` (positive denominator). -/
def QR.isZero (a : QR) : Bool := a.num == 0

/-- The candidate event object built by `processTransactionUpdate` /
`handleFallbackTransaction` and inspected by the filter.  Fields absent on some
construction paths (e.g. `mintAddress`, `buySell`) are `Option`s; the ISO
timestamp carries no decision-relevant information and is omitted. -/
structure TransactionData where
  signature : String
  wallet : Option String
  token : Option String
  amount : Option String
  buySell : Option String
  solAmount : Option QR
  type : Option String
  mintAddress : Option String
deriving DecidableEq

/-- `TransactionFilters.shouldShowTransaction`.  The argument is always an
object in this model, so the initial `typeof` guard is omitted.  The first
branch is the memecoin fast path: a truthy token different from the literals
`'SOL'`/`'WSOL'`, of raw length ≥ 2 and not blacklisted, is admitted at once;
failing its inner test falls through to the remaining checks. -/
def shouldShowTransaction (td : TransactionData) : Bool :=
  let memecoinFast :=
    match td.token with
    | none => false
    | some t =>
      (t != "") && (t != "SOL") && (t != "WSOL") &&
        (decide (2 ≤ t.length) && !(isTokenBlacklisted (some t)))
  if memecoinFast then true
  else if isTokenBlacklisted td.token then false
  else if isWalletNameBlacklisted td.wallet then false
  else if isTransactionTypeBlacklisted td.type then false
  else if !(hasValidTokenLength td.token) then false
  else if td.type == some "enhanced_transaction" && !(truthyStr td.mintAddress) then false
  else true

/-- JS `x || d` for an optional string `x` and string default `d`
(empty string is falsy and also falls back to the default). -/
def jsOrStr (o : Option String) (d : String) : String :=
  match o with
  | some s => if s = "" then d else s
  | none => d

/-- JS `x || null` for an optional string `x`: an empty string collapses
to `null`. -/
def jsOrNull (o : Option String) : Option String :=
  match o with
  | some s => if s = "" then none else some s
  | none => none

/-- A value of `this.tokenInfoCache`: `{ symbol, image, expiry }`.  The
placeholder built on fetch failure carries no `expiry` key, hence `Option`. -/
structure TokenInfo where
  symbol : String
  image : Option String
  expiry : Option ℕ
deriving DecidableEq

/-- `this.tokenInfoCache`, a JS `Map` keyed by mint address. -/
def Cache : Type := List (String × TokenInfo)

/-- JS `Map.prototype.get`. -/
def mapGet (c : Cache) (k : String) : Option TokenInfo :=
  (c.find? (fun p => p.1 == k)).map (fun p => p.2)

/-- JS `Map.prototype.set`: overwrite any existing entry for the key. -/
def mapSet (c : Cache) (k : String) (v : TokenInfo) : Cache :=
  (k, v) :: c.filter (fun p => p.1 != k)

/-- Truthiness-guarded expiry test from `purgeExpiredCache`:
`value.expiry && value.expiry < now` (a zero expiry is falsy in JS). -/
def cacheEntryExpired (now : ℕ) (v : TokenInfo) : Bool :=
  match v.expiry with
  | some e => (e != 0) && decide (e < now)
  | none => false

/-- `purgeExpiredCache`: drop every entry whose (truthy) expiry is strictly
before `now`. -/
def purgeExpiredCache (now : ℕ) (c : Cache) : Cache :=
  c.filter (fun p => !(cacheEntryExpired now p.2))

/-- The cache read performed by `getAssetInfo`
(`this.tokenInfoCache.get(mint)`, line 300): faithfully to the source it
ignores the current time entirely, which is why the first parameter is unused. -/
def getAtTime (_now : ℕ) (cache : Cache) (mint : String) : Option TokenInfo :=
  mapGet cache mint

/-- `content.metadata?.symbol` and `content.links?.image` of one entry of the
`getAssetBatch` response (the two nested option chains are flattened). -/
structure RawAssetContent where
  symbol : Option String
  image : Option String
deriving DecidableEq

/-- One entry of the `getAssetBatch` response array (entries can be `null`,
hence the containing list stores `Option RawAsset`). -/
structure RawAsset where
  id : Option String
  content : Option RawAssetContent
deriving DecidableEq

/-- One step of the cache-update loop in `fetchAssetInfoDirect`: store
`{symbol, image, expiry: now + cacheExpiry}` when the response entry and its
`id` and `content` are truthy. -/
def cacheUpdateStep (now ttl : ℕ) (acc : Cache) (a : Option RawAsset) : Cache :=
  match a with
  | some asset =>
    match asset.id, asset.content with
    | some id, some content =>
      if id = "" then acc
      else mapSet acc id
        { symbol := jsOrStr content.symbol "N/A",
          image := jsOrNull content.image,
          expiry := some (now + ttl) }
    | _, _ => acc
  | none => acc

/-- The `response.data.result.forEach` cache-update loop of
`fetchAssetInfoDirect`. -/
def cacheUpdateFromAssets (now ttl : ℕ) (assets : List (Option RawAsset))
    (c : Cache) : Cache :=
  assets.foldl (cacheUpdateStep now ttl) c

/-- The placeholder `{ symbol: 'N/A', image: null }` (no expiry key). -/
def placeholderInfo : TokenInfo := { symbol := "N/A", image := none, expiry := none }

/-- `fetchAssetInfoDirect`: `response = none` models a transport error or a
missing `result` field; on success the cache is updated from the response and
the result is read back per requested mint, in request order, with the
placeholder for misses.  Returns the updated cache and the result list. -/
def fetchAssetInfoDirect (c : Cache) (now ttl : ℕ)
    (response : Option (List (Option RawAsset))) (mintAddresses : List String) :
    Cache × List TokenInfo :=
  match response with
  | some assets =>
    let c1 := cacheUpdateFromAssets now ttl assets c
    (c1, mintAddresses.map (fun mint => (mapGet c1 mint).getD placeholderInfo))
  | none => (c, mintAddresses.map (fun _ => placeholderInfo))

/-- `getAssetInfo`: serve from cache when every requested mint is cached,
otherwise fall through to `fetchAssetInfoDirect` with the FULL mint list.
The third component is the `ids` field of the upstream request body
(`none` when no upstream call is issued). -/
def getAssetInfo (c : Cache) (now ttl : ℕ)
    (response : Option (List (Option RawAsset))) (mintAddresses : List String) :
    Cache × List TokenInfo × Option (List String) :=
  let cachedInfo := (mintAddresses.map (fun mint => mapGet c mint)).filterMap id
  if cachedInfo.length = mintAddresses.length then (c, cachedInfo, none)
  else
    let r := fetchAssetInfoDirect c now ttl response mintAddresses
    (r.1, r.2, some mintAddresses)

/-- The API-key rotation state of `HeliusWebSocketBackend`:
`heliusApiKeys`, `currentApiKeyIndex`, `callsPerKey`, `maxCallsPerRotation`. -/
structure CredState where
  heliusApiKeys : List String
  currentApiKeyIndex : ℕ
  callsPerKey : ℕ
  maxCallsPerRotation : ℕ
deriving DecidableEq

/-- `getCurrentApiKey`: JS indexing returns `undefined` out of range, hence
`Option`. -/
def getCurrentApiKey (s : CredState) : Option String :=
  s.heliusApiKeys.get? s.currentApiKeyIndex

/-- `rotateApiKeyByTime`: advance the index circularly and reset the usage
counter (the reconnect signal has no effect on this state). -/
def rotateApiKeyByTime (s : CredState) : CredState :=
  { s with
    currentApiKeyIndex := (s.currentApiKeyIndex + 1) % s.heliusApiKeys.length,
    callsPerKey := 0 }

/-- `rotateApiKeyByUsage`: count the call; once the counter reaches the
threshold, advance the index circularly and reset the counter. -/
def rotateApiKeyByUsage (s : CredState) : CredState :=
  let c := s.callsPerKey + 1
  if s.maxCallsPerRotation ≤ c then
    { s with
      currentApiKeyIndex := (s.currentApiKeyIndex + 1) % s.heliusApiKeys.length,
      callsPerKey := 0 }
  else { s with callsPerKey := c }

/-- The constructor state: the five-key pool, index 0, zero calls,
threshold 100. -/
def initialCredState : CredState :=
  { heliusApiKeys :=
      ["1db40a7c-2b94-426e-ad17-03f1fbe960ed",
       "8022b6b9-1888-4512-bc53-51be264f311e",
       "0ab96068-f225-4798-9ae8-a45174eeb178",
       "4e0ae544-dee2-4f5d-b4b5-025ef2a92773",
       "0dc33dba-fbd3-4120-84c3-52ccebafe757"],
    currentApiKeyIndex := 0,
    callsPerKey := 0,
    maxCallsPerRotation := 100 }

/-- The rotation states reachable at runtime: the constructor state, closed
under timer rotation and per-call usage accounting (every outbound call runs
`rotateApiKeyByUsage`; nothing else touches this state). -/
inductive CredReachable : CredState → Prop
  | init : CredReachable initialCredState
  | time {s : CredState} : CredReachable s → CredReachable (rotateApiKeyByTime s)
  | usage {s : CredState} : CredReachable s → CredReachable (rotateApiKeyByUsage s)

/-- `validateWalletAddress`: the regex `^[1-9A-HJ-NP-Za-km-z]\x7b32,44\x7d$`
(Base58 alphabet: digits without 0, upper case without I and O, lower case
without l). -/
def isBase58Char (c : Char) : Bool :=
  ('1' ≤ c && c ≤ '9') || ('A' ≤ c && c ≤ 'H') || ('J' ≤ c && c ≤ 'N') ||
    ('P' ≤ c && c ≤ 'Z') || ('a' ≤ c && c ≤ 'k') || ('m' ≤ c && c ≤ 'z')

/-- `validateWalletAddress`: full-string match of the Base58 pattern with a
length between 32 and 44. -/
def validateWalletAddress (address : String) : Bool :=
  decide (32 ≤ address.length) && decide (address.length ≤ 44) &&
    address.toList.all isBase58Char

/-- JS `Set.prototype.add` on the insertion-ordered tracked-wallet set. -/
def jsSetAdd (s : List String) (a : String) : List String :=
  if s.contains a then s else s ++ [a]

/-- `addWallet`: validate, and on success insert into `trackedWallets` and
return `true`; otherwise return `false` leaving the set untouched (the
connection side effects do not touch the set). -/
def addWallet (tracked : List String) (address : String) : Bool × List String :=
  if validateWalletAddress address then (true, jsSetAdd tracked address)
  else (false, tracked)

/-- Numeric value of an ASCII digit list (most significant first). -/
def natOfDigits (l : List Char) : ℕ :=
  l.foldl (fun a c => 10 * a + (c.toNat - 48)) 0

/-- JS `BigInt(string)`: empty string is `0n`, otherwise an optionally signed
digit string; anything else throws (`none`).  (Whitespace trimming and the
`0x`/`0o`/`0b` prefixes of `StringToBigInt` are not exercised by the callers,
which pass `toString()` results of numbers, and are omitted.) -/
def jsBigIntParse (s : String) : Option Int :=
  match s.toList with
  | [] => some 0
  | c :: cs =>
    if c = '-' then
      if cs ≠ [] ∧ cs.all Char.isDigit then some (-(natOfDigits cs : Int)) else none
    else if c = '+' then
      if cs ≠ [] ∧ cs.all Char.isDigit then some ((natOfDigits cs : Int)) else none
    else if (c :: cs).all Char.isDigit then some ((natOfDigits (c :: cs) : Int))
    else none

/-- JS `parseFloat`: parse the longest numeric prefix (optional sign, integer
digits, optional `.` and fraction digits); `none` is `NaN`.  (Exponent
suffixes and `Infinity` are not produced by the numeric `toString()` values
this model feeds it and are omitted.) -/
def jsParseFloat (s : String) : Option QR :=
  let l := s.toList.dropWhile Char.isWhitespace
  let neg : Bool := match l with
    | '-' :: _ => true
    | _ => false
  let l1 : List Char := match l with
    | '-' :: rest => rest
    | '+' :: rest => rest
    | _ => l
  let intPart := l1.takeWhile Char.isDigit
  let afterInt := l1.dropWhile Char.isDigit
  let fracPart : List Char := match afterInt with
    | '.' :: rest => rest.takeWhile Char.isDigit
    | _ => []
  if intPart.isEmpty && fracPart.isEmpty then none
  else
    let mag : QR :=
      QR.add (QR.ofInt (natOfDigits intPart))
        ⟨(natOfDigits fracPart : Int), 10 ^ fracPart.length⟩
    some (if neg then mag.neg else mag)

/-- JS `parseInt(string)` (radix 10): longest signed-digit prefix, `none` is
`NaN`. -/
def jsParseIntLead (s : String) : Option Int :=
  let l := s.toList.dropWhile Char.isWhitespace
  let neg : Bool := match l with
    | '-' :: _ => true
    | _ => false
  let l1 : List Char := match l with
    | '-' :: rest => rest
    | '+' :: rest => rest
    | _ => l
  let ds := l1.takeWhile Char.isDigit
  if ds.isEmpty then none
  else some (if neg then -(natOfDigits ds : Int) else (natOfDigits ds : Int))

/-- The JS `decimals` argument of `formatTokenAmount` is a string-or-number
union (`transfer.tokenStandard || 9`). -/
inductive JsDec where
  | n (v : Int)
  | s (v : String)
deriving DecidableEq

/-- The decimals normalization at the top of `formatTokenAmount`:
`'Fungible'` ⇒ 6, other strings through `parseInt` with fallback 9, numbers
kept. -/
def normalizeDecimals (d : JsDec) : Int :=
  match d with
  | .s v =>
    if v = "Fungible" then 6
    else match jsParseIntLead v with
      | some k => k
      | none => 9
  | .n v => v

/-- `⌊q + 1/2⌋` as a natural number, for `q ≥ 0`: the round-to-nearest,
ties-away-from-zero rule of both `toFixed` and `toLocaleString`
(`halfExpand`) on magnitudes. -/
def roundHalfUpNat (q : QR) : ℕ :=
  ((2 * q.num + (q.den : Int)) / (2 * (q.den : Int))).toNat

/-- Digit characters of a natural number, most significant first. -/
def numStr (n : ℕ) : List Char :=
  Nat.toDigits 10 n

/-- Left-pad with `'0'` to width `d`. -/
def padLeftZeros (l : List Char) (d : ℕ) : List Char :=
  List.replicate (d - l.length) '0' ++ l

/-- Strip trailing `'0'` characters (for `minimumFractionDigits: 0`). -/
def dropTrailingZeros (l : List Char) : List Char :=
  (l.reverse.dropWhile (fun c => c == '0')).reverse

/-- Insert a `','` after every third character of a reversed digit list. -/
def groupRev : List Char → List Char
  | a :: b :: c :: d :: rest => a :: b :: c :: ',' :: groupRev (d :: rest)
  | l => l

/-- en-US thousands grouping of an integer digit string. -/
def groupDigits (l : List Char) : List Char :=
  (groupRev l.reverse).reverse

/-- Round `N / D` to the nearest integer, ties to even (the IEEE-754
round-to-nearest-even rule on a nonnegative quotient). -/
def halfEvenDiv (N D : ℕ) : ℕ :=
  let t := N / D
  let r := N % D
  if 2 * r < D then t
  else if D < 2 * r then t + 1
  else if t % 2 = 0 then t else t + 1

/-- Fuelled floor-log₂ (the fuel only bounds the recursion; `n` itself is
always enough fuel since the argument at least halves each step). -/
def natLog2F : ℕ → ℕ → ℕ
  | 0, _ => 0
  | fuel + 1, n => if n ≤ 1 then 0 else natLog2F fuel (n / 2) + 1

/-- `⌊log₂ n⌋` for `n ≥ 1`. -/
def natLog2 (n : ℕ) : ℕ := natLog2F n n

/-- `2 ^ e ≤ n / d` for a signed exponent, by cross-multiplication. -/
def pow2LeFrac (e : ℤ) (n d : ℕ) : Bool :=
  if 0 ≤ e then decide (2 ^ e.toNat * d ≤ n) else decide (d ≤ n * 2 ^ (-e).toNat)

/-- A JS number: a finite IEEE-754 binary64 value carried as its exact
rational value, or an infinity, or `NaN`. -/
inductive JsNum where
  | num (q : QR)
  | posInf
  | negInf
  | nan
deriving DecidableEq

/-- Round the positive rational `n / d` (`n, d ≥ 1`) to the nearest binary64
value: find the binade `2 ^ e ≤ n/d < 2 ^ (e+1)`, round the 53-bit
significand to nearest/ties-even, handle subnormals (below `2 ^ (-1022)`,
fixed scale `2 ^ (-1074)`) and overflow to `Infinity`. -/
def roundPosToDouble (n d : ℕ) : JsNum :=
  let e0 : ℤ := (natLog2 n : ℤ) - (natLog2 d : ℤ) - 1
  let e : ℤ := if pow2LeFrac (e0 + 1) n d then e0 + 1 else e0
  if 1023 < e then JsNum.posInf
  else if e < -1022 then
    JsNum.num ⟨(halfEvenDiv (n * 2 ^ 1074) d : Int), 2 ^ 1074⟩
  else
    let s : ℤ := 52 - e
    let m := if 0 ≤ s then halfEvenDiv (n * 2 ^ s.toNat) d
             else halfEvenDiv n (d * 2 ^ (-s).toNat)
    if m = 2 ^ 53 then
      if 1023 < e + 1 then JsNum.posInf
      else if 52 ≤ e + 1 then
        JsNum.num ⟨((2 : Int) ^ 52) * 2 ^ (e + 1 - 52).toNat, 1⟩
      else JsNum.num ⟨(2 : Int) ^ 52, 2 ^ (52 - (e + 1)).toNat⟩
    else if 52 ≤ e then JsNum.num ⟨(m : Int) * 2 ^ (e - 52).toNat, 1⟩
    else JsNum.num ⟨(m : Int), 2 ^ (52 - e).toNat⟩

/-- Round an exact rational to the nearest binary64 value. -/
def roundToDouble (q : QR) : JsNum :=
  if q.num = 0 then JsNum.num ⟨0, 1⟩
  else if q.num < 0 then
    match roundPosToDouble q.num.natAbs q.den with
    | JsNum.num r => JsNum.num ⟨-r.num, r.den⟩
    | _ => JsNum.negInf
  else roundPosToDouble q.num.natAbs q.den

/-- The double nearest an integer (`parseFloat(bigint.toString())`). -/
def jsFromInt (i : Int) : JsNum := roundToDouble ⟨i, 1⟩

/-- Binary64 addition: exact sum, re-rounded. -/
def jsAdd (a b : JsNum) : JsNum :=
  match a, b with
  | JsNum.num x, JsNum.num y => roundToDouble (x.add y)
  | JsNum.posInf, JsNum.negInf => JsNum.nan
  | JsNum.negInf, JsNum.posInf => JsNum.nan
  | JsNum.posInf, _ => JsNum.posInf
  | _, JsNum.posInf => JsNum.posInf
  | JsNum.negInf, _ => JsNum.negInf
  | _, JsNum.negInf => JsNum.negInf
  | _, _ => JsNum.nan

/-- Binary64 division: exact quotient, re-rounded (zero divisors and
infinities handled as in JS; only finite nonzero divisors occur here). -/
def jsDiv (a b : JsNum) : JsNum :=
  match a, b with
  | JsNum.num x, JsNum.num y =>
    if y.num = 0 then
      if x.num = 0 then JsNum.nan
      else if (decide (x.num < 0)) then JsNum.negInf else JsNum.posInf
    else roundToDouble (x.div y)
  | JsNum.num _, JsNum.posInf => JsNum.num ⟨0, 1⟩
  | JsNum.num _, JsNum.negInf => JsNum.num ⟨0, 1⟩
  | JsNum.posInf, JsNum.num y => if y.num < 0 then JsNum.negInf else JsNum.posInf
  | JsNum.negInf, JsNum.num y => if y.num < 0 then JsNum.posInf else JsNum.negInf
  | _, _ => JsNum.nan

/-- `c <= x` for an integer threshold and a JS number (`NaN` compares
false). -/
def jsLeNum (c : Int) (x : JsNum) : Bool :=
  match x with
  | JsNum.num q => QR.le (QR.ofInt c) q
  | JsNum.posInf => true
  | JsNum.negInf => false
  | JsNum.nan => false

/-- The double `10 ** d` for a signed (normalized-decimals) exponent:
overflows to `Infinity` from `10 ** 309` upward, and is an inexact integer
from `10 ** 23` upward. -/
def jsPow10Z (d : Int) : JsNum :=
  if 0 ≤ d then roundToDouble ⟨(10 : Int) ^ d.toNat, 1⟩
  else roundToDouble ⟨1, 10 ^ (-d).toNat⟩

/-- `BigInt(x)` for a double `x`: the exact integer value when `x` is a
finite integer-valued double, a thrown `RangeError` (`none`) otherwise. -/
def jsBigIntOfNum (x : JsNum) : Option Int :=
  match x with
  | JsNum.num q => if q.num % (q.den : Int) = 0 then some (q.num / (q.den : Int)) else none
  | _ => none

/-- JS `Number.prototype.toFixed(d)` on an exact rational. -/
def jsToFixed (q : QR) (d : ℕ) : String :=
  let n := roundHalfUpNat (q.absQ.mul (QR.ofInt (10 ^ d)))
  let sign : String := if q.num < 0 then "-" else ""
  let ip := n / 10 ^ d
  let fp := n % 10 ^ d
  sign ++ ⟨numStr ip⟩ ++ (if d = 0 then "" else "." ++ (⟨padLeftZeros (numStr fp) d⟩ : String))

/-- JS `toLocaleString('en-US', \x7bminimumFractionDigits: 0,
maximumFractionDigits: 6\x7d)` on an exact rational. -/
def jsLocaleString6 (q : QR) : String :=
  let n := roundHalfUpNat (q.absQ.mul (QR.ofInt (10 ^ 6)))
  let sign : String := if q.num < 0 then "-" else ""
  let ip := n / 10 ^ 6
  let fp := n % 10 ^ 6
  let fpChars := dropTrailingZeros (padLeftZeros (numStr fp) 6)
  sign ++ (⟨groupDigits (numStr ip)⟩ : String) ++
    (if fpChars.isEmpty then "" else "." ++ (⟨fpChars⟩ : String))

/-- `Number.prototype.toFixed(d)` on a JS number (non-finite values render
as their `Number::toString`). -/
def jsToFixedN (x : JsNum) (d : ℕ) : String :=
  match x with
  | JsNum.num q => jsToFixed q d
  | JsNum.posInf => "Infinity"
  | JsNum.negInf => "-Infinity"
  | JsNum.nan => "NaN"

/-- `toLocaleString` on a JS number (non-finite values render as Intl does;
only finite values reach this in the program). -/
def jsLocaleString6N (x : JsNum) : String :=
  match x with
  | JsNum.num q => jsLocaleString6 q
  | JsNum.posInf => "∞"
  | JsNum.negInf => "-∞"
  | JsNum.nan => "NaN"

/-- `formatAmountWithUnits`: the B/M/K bucket scheme, on the binary64 value
of `decimalAmount`; the bucket divisions are double divisions. -/
def formatAmountWithUnits (decimalAmount : JsNum) : String :=
  if jsLeNum 1000000000 decimalAmount then
    jsToFixedN (jsDiv decimalAmount (jsFromInt 1000000000)) 2 ++ "B tokens"
  else if jsLeNum 1000000 decimalAmount then
    jsToFixedN (jsDiv decimalAmount (jsFromInt 1000000)) 2 ++ "M tokens"
  else if jsLeNum 1000 decimalAmount then
    jsToFixedN (jsDiv decimalAmount (jsFromInt 1000)) 2 ++ "K tokens"
  else if jsLeNum 1 decimalAmount then
    jsLocaleString6N decimalAmount ++ " tokens"
  else
    jsToFixedN decimalAmount 6 ++ " tokens"

/-- `formatTokenAmount(rawAmount, decimals)`: `null`/`undefined`/`''` give
`'N/A'`; a string containing `'.'` goes through `parseFloat` (a double);
otherwise the string is parsed as a `BigInt` and the divisor is
`BigInt(10 ** decimals)` — `10 ** decimals` being a double, the divisor is
inexact for normalized decimals ≥ 23, and `BigInt` throws (caught as `'N/A'`)
when it is non-integral (negative decimals) or `Infinity` (decimals ≥ 309); a
zero divisor (decimals ≤ about -324) makes the `BigInt` division itself
throw, also caught as `'N/A'`.  The recombination
`parseFloat(whole) + parseFloat(remainder)/parseFloat(divisor)` is double
arithmetic: each conversion and operation rounds to the nearest binary64
value. -/
def formatTokenAmount (rawAmount : Option String) (dec : JsDec) : String :=
  match rawAmount with
  | none => "N/A"
  | some s =>
    if s = "" then "N/A"
    else
      let d := normalizeDecimals dec
      if jsIncludes s "." then
        match jsParseFloat s with
        | none => "N/A"
        | some q => formatAmountWithUnits (roundToDouble q)
      else
        match jsBigIntParse s with
        | none => "N/A"
        | some n =>
          match jsBigIntOfNum (jsPow10Z d) with
          | none => "N/A"
          | some divisor =>
            if divisor = 0 then "N/A"
            else
              formatAmountWithUnits
                (jsAdd (jsFromInt (n.tdiv divisor))
                  (jsDiv (jsFromInt (n.tmod divisor)) (jsFromInt divisor)))

/-- `formatSOLAmountDirect`: bucketed rendering of an already-decimal SOL
amount (the literal `0.001` is the exact rational `1/1000` in this model). -/
def formatSOLAmountDirect (solAmount : QR) : String :=
  if QR.le (QR.ofInt 1000) solAmount then
    jsToFixed (solAmount.div (QR.ofInt 1000)) 2 ++ "K SOL"
  else if QR.le (QR.ofInt 1) solAmount then jsToFixed solAmount 3 ++ " SOL"
  else if QR.le ⟨1, 1000⟩ solAmount then jsToFixed solAmount 4 ++ " SOL"
  else jsToFixed solAmount 6 ++ " SOL"

/-- JS `s.toLowerCase()` restricted to ASCII. -/
def jsToLower (s : String) : String :=
  ⟨s.toList.map Char.toLower⟩

/-- The reference-asset (wrapped SOL) mint address. -/
def solMint : String := "So11111111111111111111111111111111111111112"

/-- One entry of `enhancedTx.tokenTransfers`.  Numeric JSON values are carried
in their `toString()` form. -/
structure TokenTransfer where
  mint : Option String
  tokenAmount : Option String
  tokenStandard : Option String
  fromUserAccount : Option String
  toUserAccount : Option String
deriving DecidableEq

/-- One entry of `enhancedTx.nativeTransfers`. -/
structure NativeTransfer where
  amount : Option String
  fromUserAccount : Option String
  toUserAccount : Option String
deriving DecidableEq

/-- One entry of `enhancedTx.accountData` (only the `mint` field is read). -/
structure AccountDataEntry where
  mint : Option String
deriving DecidableEq

/-- The enhanced transaction record (missing arrays are empty lists, which is
observationally the behaviour of the truthiness guards on them). -/
structure EnhancedTx where
  type : Option String
  tokenTransfers : List TokenTransfer
  nativeTransfers : List NativeTransfer
  accountData : List AccountDataEntry
deriving DecidableEq

/-- `transfer.toUserAccount === wallet || transfer.toUserAccount?.includes(wallet)`
from `determineBuySell`. -/
def walletMatches (acct : Option String) (w : String) : Bool :=
  (acct == some w) ||
    (match acct with
     | some a => jsIncludes a w
     | none => false)

/-- `isReceiving` of `determineBuySell`. -/
def isReceiving (tracked : List String) (tr : TokenTransfer) : Bool :=
  tracked.any (fun w => walletMatches tr.toUserAccount w)

/-- `isSending` of `determineBuySell`. -/
def isSending (tracked : List String) (tr : TokenTransfer) : Bool :=
  tracked.any (fun w => walletMatches tr.fromUserAccount w)

/-- `determineBuySell`: receiving-only ⇒ BUY (`true`), sending-only ⇒ SELL
(`false`), both on a `'SWAP'` ⇒ `!isSending` (= SELL), anything else falls
through to the BUY default. -/
def determineBuySell (tracked : List String) (tr : TokenTransfer)
    (txType : Option String) : Bool :=
  let r := isReceiving tracked tr
  let s := isSending tracked tr
  if r && !s then true
  else if s && !r then false
  else if s && r && (txType == some "SWAP") then !s
  else true

/-- One element of the `tokenAmounts` array built by `extractTokenAmounts`.
The `amount`/`decimals` keys of the token-path object are never read
downstream and are not modelled; `rawAmount` keeps the original string. -/
structure AmountData where
  mint : Option String
  rawAmount : Option String
  humanAmount : String
  solAmount : QR
  type : String
  isSOL : Bool
  fromUserAccount : Option String
  toUserAccount : Option String
deriving DecidableEq

/-- `transfer.tokenStandard || 9` as the decimals argument. -/
def decArg (ts : Option String) : JsDec :=
  match ts with
  | some s => if s = "" then JsDec.n 9 else JsDec.s s
  | none => JsDec.n 9

/-- The body of the `tokenTransfers.forEach` loop of `extractTokenAmounts`
for one transfer: skip zero/absent amounts; direction from
`determineBuySell`, INVERTED when the mint is the reference asset; a SOL
amount parsed directly when the amount string is already decimal, else
converted from lamports.  (A non-numeric amount string would make
`parseFloat` return `NaN`; upstream amounts are numbers, and the `NaN` case
is idealized to 0.) -/
def processTokenTransfer (tracked : List String) (txType : Option String)
    (tr : TokenTransfer) : Option AmountData :=
  match tr.tokenAmount with
  | none => none
  | some amt =>
    if amt = "" ∨ amt = "0" then none
    else
      let isSOLTransfer := tr.mint == some solMint
      let isBuy := determineBuySell tracked tr txType
      let tradeType :=
        if isSOLTransfer then (if isBuy then "SELL" else "BUY")
        else (if isBuy then "BUY" else "SELL")
      let humanAmount := formatTokenAmount (some amt) (decArg tr.tokenStandard)
      let solAmount : QR :=
        if isSOLTransfer then
          if jsIncludes amt "." then
            match jsParseFloat amt with
            | some q => q
            | none => ⟨0, 1⟩
          else
            match jsParseFloat amt with
            | some q => q.div (QR.ofInt 1000000000)
            | none => ⟨0, 1⟩
        else ⟨0, 1⟩
      some { mint := tr.mint, rawAmount := some amt, humanAmount := humanAmount,
             solAmount := solAmount, type := tradeType, isSOL := isSOLTransfer,
             fromUserAccount := tr.fromUserAccount,
             toUserAccount := tr.toUserAccount }

/-- The body of the `nativeTransfers.forEach` fallback loop of
`extractTokenAmounts`: skip zero amounts; lamports converted to SOL;
direction from the sign of the amount. -/
def processNativeTransfer (tr : NativeTransfer) : Option AmountData :=
  let amount : QR :=
    match tr.amount with
    | some a => (jsParseFloat a).getD ⟨0, 1⟩
    | none => ⟨0, 1⟩
  let solAmount := amount.div (QR.ofInt 1000000000)
  if amount.isZero then none
  else
    some { mint := some solMint, rawAmount := tr.amount,
           humanAmount := formatSOLAmountDirect solAmount,
           solAmount := solAmount,
           type := if QR.lt ⟨0, 1⟩ amount then "BUY" else "SELL",
           isSOL := true,
           fromUserAccount := tr.fromUserAccount,
           toUserAccount := tr.toUserAccount }

/-- `extractTokenAmounts`: process all token transfers, then fall back to
native transfers only when no SOL entry was produced. -/
def extractTokenAmounts (tracked : List String) (tx : EnhancedTx) :
    List AmountData :=
  let step1 := tx.tokenTransfers.filterMap (processTokenTransfer tracked tx.type)
  let hasSOL := step1.any (fun ta => ta.isSOL)
  if !hasSOL && !tx.nativeTransfers.isEmpty then
    step1 ++ tx.nativeTransfers.filterMap processNativeTransfer
  else step1

/-- Insertion-ordered de-duplication (JS `Set` iteration order). -/
def dedupAppend (acc : List String) (m : String) : List String :=
  if acc.contains m then acc else acc ++ [m]

/-- `extractMintAddresses`: truthy mints of token transfers then account
data, de-duplicated in insertion order. -/
def extractMintAddresses (tx : EnhancedTx) : List String :=
  ((tx.tokenTransfers.filterMap (fun t => jsOrNull t.mint)) ++
    (tx.accountData.filterMap (fun a => jsOrNull a.mint))).foldl dedupAppend []

/-- One element of the `validNonSOLTokens` array of
`processTransactionUpdate` step 5. -/
structure ValidToken where
  asset : TokenInfo
  index : ℕ
  symbol : String
  mint : String
deriving DecidableEq

/-- Step 5 of `processTransactionUpdate`: indexed scan of the asset-info
array, keeping entries with a truthy symbol whose trimmed form is none of the
SOL aliases / placeholders, has length ≥ 2, and whose mint at the same index
is truthy and not the reference mint. -/
def validNonSOLTokens (assetInfoArray : List TokenInfo)
    (mintAddresses : List String) : List ValidToken :=
  (List.range assetInfoArray.length).filterMap (fun i =>
    match assetInfoArray.get? i with
    | some asset =>
      if asset.symbol ≠ "" then
        let symbol := jsTrim asset.symbol
        if symbol ≠ "SOL" ∧ symbol ≠ "WSOL" ∧ symbol ≠ "wSOL" ∧
            symbol ≠ "Unknown" ∧ symbol ≠ "N/A" ∧ symbol ≠ "" ∧
            2 ≤ symbol.length then
          match mintAddresses.get? i with
          | some mintAddr =>
            if mintAddr ≠ "" ∧ mintAddr ≠ solMint then
              some { asset := asset, index := i, symbol := symbol, mint := mintAddr }
            else none
          | none => none
        else none
      else none
    | none => none)

/-- `handleFallbackTransaction`'s degraded event (built for a non-empty
signature). -/
def fallbackTransaction (signature : String) : TransactionData :=
  { signature := signature, wallet := some "Transaction Detected",
    token := some "Unknown", amount := some "N/A SOL",
    buySell := none, solAmount := none,
    type := some "basic_transaction", mintAddress := none }

/-- Step 8 of `processTransactionUpdate`: hand the event to
`notifyTransaction` only if the filter admits it.  The returned list is the
sequence of events handed to the notification callback. -/
def emitFiltered (td : TransactionData) : List TransactionData :=
  if shouldShowTransaction td then [td] else []

/-- `largestSOLTransfer`: `reduce` keeping the entry with the strictly larger
absolute SOL amount (earlier entry wins ties). -/
def largestSOLTransfer (s : AmountData) (rest : List AmountData) : AmountData :=
  rest.foldl
    (fun mx cur => if QR.lt mx.solAmount.absQ cur.solAmount.absQ then cur else mx) s

/-- `largest.fromUserAccount && trackedWalletsArray.includes(...)`:
truthiness guard plus exact membership. -/
def trackedHit (tracked : List String) (acct : Option String) : Bool :=
  match acct with
  | some a => (a != "") && tracked.contains a
  | none => false

/-- `this.trackedWallets.has(acct)` (no truthiness guard). -/
def setHas (tracked : List String) (acct : Option String) : Bool :=
  match acct with
  | some a => tracked.contains a
  | none => false

/-- `actualWalletInvolved || Array.from(this.trackedWallets)[0]`. -/
def walletOrFirst (actualWallet : Option String) (tracked : List String) :
    Option String :=
  match actualWallet with
  | some w => if w = "" then tracked.head? else some w
  | none => tracked.head?

/-- Steps 6–8 of `processTransactionUpdate` (SOL analysis, event assembly and
the filter gate), given the chosen primary token symbol and the extracted
amounts.  Faithfully to the source: with SOL transfers present, the main
transfer decides direction when a tracked wallet is one of its endpoints
(receiving SOL ⇒ SELL, sending ⇒ BUY, both ⇒ the `isUserBuying = false`
initial value and no specific wallet); otherwise all SOL transfers are summed
and direction is the net flow; amounts below 0.001 SOL are dropped; without
SOL transfers the first token amount is re-formatted and the direction is
`'UNKNOWN'`. -/
def buildEnhancedEvent (tracked : List String) (signature : String)
    (primarySymbol : String) (tokenAmounts : List AmountData) :
    List TransactionData :=
  match tokenAmounts.filter (fun ta => ta.isSOL) with
  | [] =>
    let amountText :=
      match tokenAmounts.head? with
      | some mainTransfer =>
        formatTokenAmount (some (jsOrStr (some mainTransfer.humanAmount) "0"))
          (JsDec.n 9)
      | none => "N/A"
    emitFiltered
      { signature := signature, wallet := walletOrFirst none tracked,
        token := some primarySymbol, amount := some amountText,
        buySell := some "UNKNOWN", solAmount := some ⟨0, 1⟩,
        type := some "enhanced_transaction", mintAddress := none }
  | s0 :: rest =>
    let largest := largestSOLTransfer s0 rest
    let fromTracked := trackedHit tracked largest.fromUserAccount
    let toTracked := trackedHit tracked largest.toUserAccount
    if fromTracked || toTracked then
      let totalSOL := largest.solAmount.absQ
      let isBuying := fromTracked && !toTracked
      let actualWallet : Option String :=
        if toTracked && !fromTracked then largest.toUserAccount
        else if fromTracked && !toTracked then largest.fromUserAccount
        else none
      if QR.lt totalSOL ⟨1, 1000⟩ then []
      else
        emitFiltered
          { signature := signature,
            wallet := walletOrFirst actualWallet tracked,
            token := some primarySymbol,
            amount := some ((if isBuying then "🟢" else "🔴") ++ " " ++
              formatSOLAmountDirect totalSOL),
            buySell := some (if isBuying then "BUY" else "SELL"),
            solAmount := some totalSOL,
            type := some "enhanced_transaction", mintAddress := none }
    else
      let totalSOL := (s0 :: rest).foldl (fun acc t => acc.add t.solAmount.absQ) ⟨0, 1⟩
      let sending := (s0 :: rest).foldl
        (fun acc t => if setHas tracked t.fromUserAccount then acc.add t.solAmount.absQ else acc)
        ⟨0, 1⟩
      let receiving := (s0 :: rest).foldl
        (fun acc t => if setHas tracked t.toUserAccount then acc.add t.solAmount.absQ else acc)
        ⟨0, 1⟩
      let isBuying := QR.lt receiving sending
      if QR.lt totalSOL ⟨1, 1000⟩ then []
      else
        emitFiltered
          { signature := signature,
            wallet := walletOrFirst none tracked,
            token := some primarySymbol,
            amount := some ((if isBuying then "🟢" else "🔴") ++ " " ++
              formatSOLAmountDirect totalSOL),
            buySell := some (if isBuying then "BUY" else "SELL"),
            solAmount := some totalSOL,
            type := some "enhanced_transaction", mintAddress := none }

/-- `processTransactionUpdate` for a `logsNotification` frame, as the list of
events handed to the notification callback.  `sig` is
`logs.value?.signature`; `enhancedTx = none` models an enrichment failure
(the fallback event is emitted); `tx.type = none` makes
`enhancedTx.type.toLowerCase()` throw, reaching the `catch` which emits the
fallback event; `assetInfoArray` is the awaited `getAssetInfo` result. -/
def processTransactionUpdate (tracked : List String) (sig : Option String)
    (enhancedTx : Option EnhancedTx) (assetInfoArray : List TokenInfo) :
    List TransactionData :=
  if tracked.isEmpty then []
  else
    match sig with
    | none => []
    | some signature =>
      if signature = "" then []
      else
        match enhancedTx with
        | none => [fallbackTransaction signature]
        | some tx =>
          match tx.type with
          | none => [fallbackTransaction signature]
          | some ty =>
            if ty ≠ "SWAP" ∧ ¬(jsIncludes (jsToLower ty) "swap" = true) then []
            else
              if (extractMintAddresses tx).isEmpty then []
              else
                match (validNonSOLTokens assetInfoArray (extractMintAddresses tx)).head? with
                | none => []
                | some chosen =>
                  buildEnhancedEvent tracked signature chosen.asset.symbol
                    (extractTokenAmounts tracked tx)

-- ======================= THEOREMS =======================

/-- Invariant behind C9: every reachable rotation state has the constructor's
key pool and an index inside it. -/
theorem credReachable_invariant (s : CredState) (h : CredReachable s) :
    s.heliusApiKeys = initialCredState.heliusApiKeys ∧
      s.currentApiKeyIndex < s.heliusApiKeys.length := by
  induction h with
  | init => exact ⟨rfl, by decide⟩
  | time _ ih =>
    refine ⟨ih.1, ?_⟩
    simp only [rotateApiKeyByTime]
    exact Nat.mod_lt _ (lt_of_le_of_lt (Nat.zero_le _) ih.2)
  | usage _ ih =>
    refine ⟨?_, ?_⟩ <;> simp only [rotateApiKeyByUsage]
    · split <;> exact ih.1
    · split
      · exact Nat.mod_lt _ (lt_of_le_of_lt (Nat.zero_le _) ih.2)
      · exact ih.2

/-- C9: whenever rotation is triggered — the usage counter reaching the
threshold, or the timer — the index advances by exactly one modulo the pool
size and the usage counter resets to zero; and on every reachable state the
current-key accessor returns an element of the key pool. -/
theorem c9_rotation (s : CredState) :
    ((rotateApiKeyByTime s).currentApiKeyIndex =
        (s.currentApiKeyIndex + 1) % s.heliusApiKeys.length ∧
      (rotateApiKeyByTime s).callsPerKey = 0) ∧
    (s.maxCallsPerRotation ≤ s.callsPerKey + 1 →
      (rotateApiKeyByUsage s).currentApiKeyIndex =
          (s.currentApiKeyIndex + 1) % s.heliusApiKeys.length ∧
        (rotateApiKeyByUsage s).callsPerKey = 0) ∧
    (CredReachable s → ∃ k, getCurrentApiKey s = some k ∧ k ∈ s.heliusApiKeys) := by
  refine ⟨⟨rfl, rfl⟩, fun htrig => ?_, fun hreach => ?_⟩
  · exact ⟨by simp [rotateApiKeyByUsage, htrig], by simp [rotateApiKeyByUsage, htrig]⟩
  · have hinv := credReachable_invariant s hreach
    have hsome : s.heliusApiKeys.get? s.currentApiKeyIndex =
        some (s.heliusApiKeys.get ⟨s.currentApiKeyIndex, hinv.2⟩) :=
      List.get?_eq_get hinv.2
    exact ⟨_, hsome, List.get?_mem hsome⟩

/-- Witness for C9: the usage-trigger and reachability hypotheses discharged
at the constructor state after 99 counted calls. -/
theorem c9_rotation_witness :
    (rotateApiKeyByUsage { initialCredState with callsPerKey := 99 }).currentApiKeyIndex =
        (({ initialCredState with callsPerKey := 99 }).currentApiKeyIndex + 1) %
          ({ initialCredState with callsPerKey := 99 }).heliusApiKeys.length ∧
      (rotateApiKeyByUsage { initialCredState with callsPerKey := 99 }).callsPerKey = 0 :=
  ((c9_rotation { initialCredState with callsPerKey := 99 }).2.1 (by decide))

/-- C10: `addWallet` returns `true` and puts the address in the tracked set
exactly when the address matches the Base58 pattern, and a `false` return
leaves the set unchanged. -/
theorem c10_addWallet (tracked : List String) (address : String) :
    (((addWallet tracked address).1 = true ∧ address ∈ (addWallet tracked address).2) ↔
      validateWalletAddress address = true) ∧
    ((addWallet tracked address).1 = false → (addWallet tracked address).2 = tracked) := by
  constructor
  · constructor
    · intro h
      by_contra hv
      have : (addWallet tracked address).1 = false := by
        simp [addWallet, Bool.eq_false_iff.mpr hv]
      simp [this] at h
    · intro hv
      refine ⟨by simp [addWallet, hv], ?_⟩
      simp only [addWallet, hv, if_true]
      by_cases hmem : address ∈ tracked
      · simp [jsSetAdd, hmem]
      · simp [jsSetAdd, hmem]
  · intro h
    by_cases hv : validateWalletAddress address = true
    · simp [addWallet, hv] at h
    · simp [addWallet, Bool.eq_false_iff.mpr hv]

/-- C4: for a token transfer whose mint is the reference asset, the recorded
direction is the logical negation of `determineBuySell`'s membership-based
direction: the entry says "BUY" exactly when `determineBuySell` said SELL
(`false`); in particular the watched wallet receiving the reference asset
(receiving-only) yields "SELL" and sending it yields "BUY". -/
theorem c4_sol_direction_inverted (tracked : List String) (txType : Option String)
    (tr : TokenTransfer) (d : AmountData)
    (hmint : tr.mint = some solMint)
    (hproc : processTokenTransfer tracked txType tr = some d) :
    (d.type = "BUY" ↔ determineBuySell tracked tr txType = false) ∧
    (isReceiving tracked tr = true → isSending tracked tr = false → d.type = "SELL") ∧
    (isSending tracked tr = true → isReceiving tracked tr = false → d.type = "BUY") := by
  have hsol : (tr.mint == some solMint) = true := by simp [hmint]
  cases hamt : tr.tokenAmount with
  | none => simp [processTokenTransfer, hamt] at hproc
  | some amt =>
    simp only [processTokenTransfer, hamt] at hproc
    by_cases hz : amt = "" ∨ amt = "0"
    · rw [if_pos hz] at hproc
      cases hproc
    · rw [if_neg hz] at hproc
      injection hproc with hd
      subst hd
      refine ⟨?_, ?_, ?_⟩
      · cases hbuy : determineBuySell tracked tr txType <;> simp [hsol, hbuy]
      · intro hr hs
        have hbuy : determineBuySell tracked tr txType = true := by
          simp [determineBuySell, hr, hs]
        simp [hsol, hbuy]
      · intro hs hr
        have hbuy : determineBuySell tracked tr txType = false := by
          simp [determineBuySell, hr, hs]
        simp [hsol, hbuy]

/-- Witness for C4: the watched wallet receives 1 SOL (reference asset) in a
swap; `determineBuySell` says BUY (receiving-only) and the recorded entry
says "SELL". -/
theorem c4_sol_direction_witness :
    ({ mint := some solMint, rawAmount := some "1000000000",
       humanAmount := "1 tokens", solAmount := ⟨1000000000, 1000000000⟩,
       type := "SELL", isSOL := true, fromUserAccount := none,
       toUserAccount := some "WALLETA" } : AmountData).type = "SELL" :=
  (c4_sol_direction_inverted ["WALLETA"] (some "SWAP")
      { mint := some solMint, tokenAmount := some "1000000000",
        tokenStandard := none, fromUserAccount := none,
        toUserAccount := some "WALLETA" }
      { mint := some solMint, rawAmount := some "1000000000",
        humanAmount := "1 tokens", solAmount := ⟨1000000000, 1000000000⟩,
        type := "SELL", isSOL := true, fromUserAccount := none,
        toUserAccount := some "WALLETA" }
      rfl (by decide)).2.1 (by decide) (by decide)

/-- C6: a successfully enriched transaction whose kind tag is neither
`'SWAP'` nor contains `'swap'` case-insensitively is dropped by
`processTransactionUpdate` before mint extraction, asset lookup, amount
extraction and classification: no event is emitted, for every tracked set,
signature, transfer contents and asset-info array. -/
theorem c6_non_swap_dropped (tracked : List String) (sig : Option String)
    (tx : EnhancedTx) (assetInfoArray : List TokenInfo) (ty : String)
    (hty : tx.type = some ty) (h1 : ty ≠ "SWAP")
    (h2 : jsIncludes (jsToLower ty) "swap" = false) :
    processTransactionUpdate tracked sig (some tx) assetInfoArray = [] := by
  rcases sig with _ | s
  · simp [processTransactionUpdate]
  · simp [processTransactionUpdate, hty, h1, h2]

/-- Witness for C6: a transaction of kind "account_change" with a token
transfer and account data produces no event. -/
theorem c6_non_swap_dropped_witness :
    processTransactionUpdate ["W"] (some "sig1")
      (some
        { type := some "account_change",
          tokenTransfers :=
            [{ mint := some "MintA", tokenAmount := some "5",
               tokenStandard := none, fromUserAccount := some "W",
               toUserAccount := none }],
          nativeTransfers := [],
          accountData := [{ mint := some "MintA" }] })
      [{ symbol := "FOO", image := none, expiry := none }] = [] :=
  c6_non_swap_dropped ["W"] (some "sig1") _ _ "account_change" rfl (by decide)
    (by decide)

theorem mem_emitFiltered {td e : TransactionData} (h : e ∈ emitFiltered td) :
    shouldShowTransaction e = true := by
  unfold emitFiltered at h
  by_cases hs : shouldShowTransaction td = true
  · rw [if_pos hs] at h
    rcases List.mem_singleton.mp h with rfl
    exact hs
  · rw [if_neg hs] at h
    cases h

theorem mem_buildEnhancedEvent {tracked : List String} {signature : String}
    {primarySymbol : String} {tokenAmounts : List AmountData}
    {e : TransactionData}
    (h : e ∈ buildEnhancedEvent tracked signature primarySymbol tokenAmounts) :
    shouldShowTransaction e = true := by
  unfold buildEnhancedEvent at h
  split at h
  · exact mem_emitFiltered h
  · simp only [] at h
    split at h
    · split at h
      · cases h
      · exact mem_emitFiltered h
    · split at h
      · cases h
      · exact mem_emitFiltered h

/-- C1 counterexample: with a wallet tracked and a well-formed signature, an
enrichment failure (`getEnhancedTransaction` returning no data) hands the
degraded fallback event directly to the notification callback, and that very
event is one `shouldShowTransaction` rejects — so an event reaches the
callback without having been admitted by the filter. -/
theorem c1_fallback_bypasses_filter :
    processTransactionUpdate ["W"] (some "sig1") none [] =
        [fallbackTransaction "sig1"] ∧
      shouldShowTransaction (fallbackTransaction "sig1") = false := by
  exact ⟨by decide, by decide⟩

/-- C1 amended: every event handed to the notification callback either passed
`shouldShowTransaction` (the enhanced processing path) or is the degraded
fallback event of the enrichment-failure / processing-error paths, which is
handed over without any filter check. -/
theorem c1_filter_or_fallback (tracked : List String) (sig : Option String)
    (etx : Option EnhancedTx) (assets : List TokenInfo) (e : TransactionData)
    (he : e ∈ processTransactionUpdate tracked sig etx assets) :
    shouldShowTransaction e = true ∨
      (sig = some e.signature ∧ e = fallbackTransaction e.signature) := by
  unfold processTransactionUpdate at he
  by_cases htr : tracked.isEmpty
  · rw [if_pos htr] at he
    cases he
  · rw [if_neg htr] at he
    rcases sig with _ | s
    · cases he
    · simp only [] at he
      by_cases hsig : s = ""
      · rw [if_pos hsig] at he
        cases he
      · rw [if_neg hsig] at he
        rcases etx with _ | tx
        · rcases List.mem_singleton.mp he with rfl
          exact Or.inr ⟨rfl, rfl⟩
        · simp only [] at he
          rcases hty : tx.type with _ | ty
          · rw [hty] at he
            rcases List.mem_singleton.mp he with rfl
            exact Or.inr ⟨rfl, rfl⟩
          · rw [hty] at he
            simp only [] at he
            split at he
            · cases he
            · split at he
              · cases he
              · split at he
                · cases he
                · exact Or.inl (mem_buildEnhancedEvent he)

/-- Witness for C1 (amended) at the concrete enrichment-failure input of the
counterexample: the emitted event is the fallback event. -/
theorem c1_filter_or_fallback_witness :
    shouldShowTransaction (fallbackTransaction "sig1") = true ∨
      (some "sig1" = some (fallbackTransaction "sig1").signature ∧
        fallbackTransaction "sig1" =
          fallbackTransaction (fallbackTransaction "sig1").signature) :=
  c1_filter_or_fallback ["W"] (some "sig1") none [] (fallbackTransaction "sig1")
    (by decide)

/-- Witness for C10 at concrete inputs: a syntactically valid Base58 address
is accepted and inserted; the implication side is discharged at an invalid
address (too short). -/
theorem c10_addWallet_witness :
    (addWallet [] "abc").2 = [] ∧
      ((addWallet [] "9WzDXwBbmkg8ZTbNMqUxvQRAyrZzDsGYdLVL9zYtAWWM").1 = true ∧
        "9WzDXwBbmkg8ZTbNMqUxvQRAyrZzDsGYdLVL9zYtAWWM" ∈
          (addWallet [] "9WzDXwBbmkg8ZTbNMqUxvQRAyrZzDsGYdLVL9zYtAWWM").2) :=
  ⟨(c10_addWallet [] "abc").2 (by decide),
    (c10_addWallet [] "9WzDXwBbmkg8ZTbNMqUxvQRAyrZzDsGYdLVL9zYtAWWM").1.mpr (by decide)⟩

theorem mapGet_mapSet_self (c : Cache) (k : String) (v : TokenInfo) :
    mapGet (mapSet c k v) k = some v := by
  unfold mapGet mapSet
  rw [List.find?_cons_of_pos _ (by simp)]
  rfl

theorem find?_filter_ne (c : Cache) (k k' : String) (h : k' ≠ k) :
    (c.filter (fun p => p.1 != k)).find? (fun p => p.1 == k') =
      c.find? (fun p => p.1 == k') := by
  induction c with
  | nil => rfl
  | cons p t ih =>
    by_cases hp : p.1 = k
    · simp [List.filter_cons, List.find?_cons, hp, Ne.symm h, ih]
    · by_cases hq : p.1 = k'
      · simp [List.filter_cons, List.find?_cons, hp, hq, h]
      · simp [List.filter_cons, List.find?_cons, hp, hq, ih]

theorem mapGet_mapSet_ne (c : Cache) (k k' : String) (v : TokenInfo) (h : k' ≠ k) :
    mapGet (mapSet c k v) k' = mapGet c k' := by
  unfold mapGet mapSet
  rw [List.find?_cons_of_neg _ (by simp only [beq_iff_eq]; exact Ne.symm h),
    find?_filter_ne _ _ _ h]

theorem mapGet_purge_mapSet_live (c : Cache) (k : String) (v : TokenInfo)
    (now : ℕ) (h : cacheEntryExpired now v = false) :
    mapGet (purgeExpiredCache now (mapSet c k v)) k = some v := by
  unfold purgeExpiredCache mapSet
  rw [List.filter_cons_of_pos (by simp [h])]
  unfold mapGet
  rw [List.find?_cons_of_pos _ (by simp)]
  rfl

theorem mapGet_purge_mapSet_dead (c : Cache) (k : String) (v : TokenInfo)
    (now : ℕ) (h : cacheEntryExpired now v = true) :
    mapGet (purgeExpiredCache now (mapSet c k v)) k = none := by
  unfold purgeExpiredCache mapSet
  rw [List.filter_cons_of_neg (by simp [h])]
  unfold mapGet
  have hfind : List.find? (fun p => p.1 == k)
      ((c.filter (fun q => q.1 != k)).filter
        (fun p => !(cacheEntryExpired now p.2))) = none := by
    apply List.find?_eq_none.mpr
    intro p hp
    have hp1 : p ∈ c.filter (fun q => q.1 != k) := List.mem_of_mem_filter hp
    have hne := List.of_mem_filter hp1
    simp only [bne_iff_ne, ne_eq] at hne
    simp [hne]
  rw [hfind]
  rfl

/-- C2 counterexample: the read path of `getAssetInfo` ignores the clock, so a
metadata entry stored with expiry 300000 is still returned by a get at time
600000 — after the TTL has elapsed — as long as no purge sweep has run,
whereas the claim requires absent whenever `now < expiry` fails. -/
theorem c2_cache_counterexample :
    getAtTime 600000
        (mapSet [] "mintX" { symbol := "ABC", image := none, expiry := some 300000 })
        "mintX" =
      some { symbol := "ABC", image := none, expiry := some 300000 } ∧
    ¬ (600000 < 300000) := by
  exact ⟨by decide, by decide⟩

/-- C2 amended: a get immediately after a put returns the stored metadata; the
TTL is enforced only by the periodic purge sweep — a sweep at `now ≤ expiry`
keeps the entry, a sweep at `expiry < now` removes it so a subsequent get
returns absent; between expiry and the next sweep a get still returns the
stale entry (see the counterexample). -/
theorem c2_cache_ttl (c : Cache) (k : String) (v : TokenInfo) (e : ℕ)
    (hv : v.expiry = some e) (he : e ≠ 0) :
    mapGet (mapSet c k v) k = some v ∧
    (∀ now, now ≤ e → mapGet (purgeExpiredCache now (mapSet c k v)) k = some v) ∧
    (∀ now, e < now → mapGet (purgeExpiredCache now (mapSet c k v)) k = none) := by
  refine ⟨mapGet_mapSet_self c k v, fun now hnow => ?_, fun now hnow => ?_⟩
  · exact mapGet_purge_mapSet_live c k v now
      (by simp [cacheEntryExpired, hv, Nat.not_lt.mpr hnow])
  · exact mapGet_purge_mapSet_dead c k v now
      (by simp [cacheEntryExpired, hv, he, hnow])

/-- Witness for C2 (amended): put at time 0 with TTL 300000, sweep at 200000
keeps the entry, sweep at 400000 removes it. -/
theorem c2_cache_ttl_witness :
    mapGet (mapSet [] "m" { symbol := "ABC", image := none, expiry := some 300000 }) "m" =
        some { symbol := "ABC", image := none, expiry := some 300000 } ∧
      mapGet (purgeExpiredCache 200000
          (mapSet [] "m" { symbol := "ABC", image := none, expiry := some 300000 })) "m" =
        some { symbol := "ABC", image := none, expiry := some 300000 } ∧
      mapGet (purgeExpiredCache 400000
          (mapSet [] "m" { symbol := "ABC", image := none, expiry := some 300000 })) "m" =
        none :=
  ⟨(c2_cache_ttl [] "m" _ 300000 rfl (by decide)).1,
    (c2_cache_ttl [] "m" _ 300000 rfl (by decide)).2.1 200000 (by decide),
    (c2_cache_ttl [] "m" _ 300000 rfl (by decide)).2.2 400000 (by decide)⟩

theorem cacheUpdateStep_cases (now ttl : ℕ) (acc : Cache) (a : Option RawAsset) :
    cacheUpdateStep now ttl acc a = acc ∨
      ∃ id info, info.expiry = some (now + ttl) ∧
        cacheUpdateStep now ttl acc a = mapSet acc id info := by
  obtain _ | ⟨oid, oct⟩ := a
  · exact Or.inl rfl
  · obtain _ | id := oid
    · exact Or.inl rfl
    · obtain _ | ct := oct
      · exact Or.inl rfl
      · by_cases hemp : id = ""
        · exact Or.inl (by simp [cacheUpdateStep, hemp])
        · exact Or.inr ⟨id,
            ⟨jsOrStr ct.symbol "N/A", jsOrNull ct.image, some (now + ttl)⟩,
            rfl, by simp [cacheUpdateStep, hemp]⟩

theorem cacheUpdate_ttl_preserved (now ttl : ℕ) (assets : List (Option RawAsset)) :
    ∀ (c : Cache) (k : String),
      (∃ v, mapGet c k = some v ∧ v.expiry = some (now + ttl)) →
      ∃ v, mapGet (cacheUpdateFromAssets now ttl assets c) k = some v ∧
        v.expiry = some (now + ttl) := by
  induction assets with
  | nil => exact fun c k h => h
  | cons a rest ih =>
    intro c k h
    have hstep : ∃ v, mapGet (cacheUpdateStep now ttl c a) k = some v ∧
        v.expiry = some (now + ttl) := by
      rcases cacheUpdateStep_cases now ttl c a with heq | ⟨id, info, hinfo, heq⟩
      · rw [heq]; exact h
      · rw [heq]
        by_cases hk : k = id
        · subst hk
          exact ⟨info, mapGet_mapSet_self _ _ _, hinfo⟩
        · rw [mapGet_mapSet_ne _ _ _ _ hk]
          exact h
    exact ih (cacheUpdateStep now ttl c a) k hstep

theorem cacheUpdate_written (now ttl : ℕ) (assets : List (Option RawAsset)) :
    ∀ (c : Cache) (asset : RawAsset) (id : String) (ct : RawAssetContent),
      some asset ∈ assets → asset.id = some id → id ≠ "" → asset.content = some ct →
      ∃ v, mapGet (cacheUpdateFromAssets now ttl assets c) id = some v ∧
        v.expiry = some (now + ttl) := by
  induction assets with
  | nil => intro c asset id ct hmem; exact absurd hmem (List.not_mem_nil _)
  | cons a rest ih =>
    intro c asset id ct hmem hid hne hct
    rcases List.mem_cons.mp hmem with heq | hmem'
    · subst heq
      obtain ⟨oid, oct⟩ := asset
      have hid' : oid = some id := hid
      have hct' : oct = some ct := hct
      subst hid' hct'
      have hstep : cacheUpdateStep now ttl c (some ⟨some id, some ct⟩) =
          mapSet c id
            { symbol := jsOrStr ct.symbol "N/A", image := jsOrNull ct.image,
              expiry := some (now + ttl) } := by
        simp [cacheUpdateStep, hne]
      show ∃ v, mapGet (cacheUpdateFromAssets now ttl rest
          (cacheUpdateStep now ttl c (some ⟨some id, some ct⟩))) id = some v ∧
        v.expiry = some (now + ttl)
      apply cacheUpdate_ttl_preserved
      rw [hstep]
      exact ⟨_, mapGet_mapSet_self _ _ _, rfl⟩
    · exact ih (cacheUpdateStep now ttl c a) asset id ct hmem' hid hne hct

/-- C7 counterexample: on a partial failure no placeholder is substituted
when the cache already holds the id: mint "m2" is absent from the response
but has a pre-existing (stale) cache entry, and the second returned entry is
that stale entry, not the `{symbol: 'N/A'}` placeholder the claim requires
per failed entry. -/
theorem c7_stale_entry_counterexample :
    (fetchAssetInfoDirect
        (mapSet [] "m2" { symbol := "OLD", image := none, expiry := some 100 })
        0 300000
        (some [some { id := some "m1",
                      content := some { symbol := some "FOO", image := none } }])
        ["m1", "m2"]).2.get? 1 =
      some { symbol := "OLD", image := none, expiry := some 100 } ∧
    ({ symbol := "OLD", image := none, expiry := some 100 } : TokenInfo) ≠
      placeholderInfo := by
  exact ⟨by decide, by decide⟩

/-- C7 amended: the asset-batch fetch returns a list of the same length and
order as the non-empty input, each entry being the POST-UPDATE CACHE entry
for its mint — so on partial failure an id missed by the response yields its
pre-existing (possibly stale) cached entry when one exists (see the
counterexample) and the `{symbol: 'N/A'}` placeholder only when it is also
uncached; on total failure every entry is the placeholder regardless of the
cache; and every valid response entry is written into the cache with expiry
`now + cacheExpiry` in the returned cache state. -/
theorem c7_fetchAssetBatch (c : Cache) (now ttl : ℕ)
    (response : Option (List (Option RawAsset))) (mints : List String)
    (hne : mints ≠ []) :
    (fetchAssetInfoDirect c now ttl response mints).2.length = mints.length ∧
    (response = none →
      ∀ e ∈ (fetchAssetInfoDirect c now ttl response mints).2, e = placeholderInfo) ∧
    (∀ assets, response = some assets →
      (∀ asset, some asset ∈ assets → ∀ id, asset.id = some id → id ≠ "" →
        ∀ ct, asset.content = some ct →
          ∃ v, mapGet (fetchAssetInfoDirect c now ttl response mints).1 id = some v ∧
            v.expiry = some (now + ttl)) ∧
      (∀ j m, mints.get? j = some m →
        (fetchAssetInfoDirect c now ttl response mints).2.get? j =
          some ((mapGet (fetchAssetInfoDirect c now ttl response mints).1 m).getD
            placeholderInfo))) := by
  cases response with
  | none =>
    refine ⟨by simp [fetchAssetInfoDirect], fun _ e he => ?_,
      fun assets h => Option.noConfusion h⟩
    simp only [fetchAssetInfoDirect] at he
    rcases List.mem_map.mp he with ⟨m, _, hm⟩
    exact hm.symm
  | some assets =>
    refine ⟨by simp [fetchAssetInfoDirect], fun h => Option.noConfusion h,
      fun assets' h => ?_⟩
    have hassets : assets' = assets := (Option.some.injEq _ _ ▸ h).symm
    subst hassets
    constructor
    · intro asset hmem id hid hne' ct hct
      exact cacheUpdate_written now ttl assets' c asset id ct hmem hid hne' hct
    · intro j m hj
      simp only [fetchAssetInfoDirect]
      rw [List.get?_map, hj]
      rfl

/-- Witness for C7 at a concrete batch: two mints, a response covering the
first one; the returned list has length 2. -/
theorem c7_fetchAssetBatch_witness :
    (fetchAssetInfoDirect [] 0 300000
        (some [some { id := some "m1",
                      content := some { symbol := some "FOO", image := none } }])
        ["m1", "m2"]).2.length = ["m1", "m2"].length ∧
    (fetchAssetInfoDirect [] 0 300000
        (some [some { id := some "m1",
                      content := some { symbol := some "FOO", image := none } }])
        ["m1", "m2"]).2.get? 0 =
      some ((mapGet (fetchAssetInfoDirect [] 0 300000
          (some [some { id := some "m1",
                        content := some { symbol := some "FOO", image := none } }])
          ["m1", "m2"]).1 "m1").getD placeholderInfo) :=
  ⟨(c7_fetchAssetBatch [] 0 300000 _ ["m1", "m2"] (by decide)).1,
    (((c7_fetchAssetBatch [] 0 300000 _ ["m1", "m2"] (by decide)).2.2 _ rfl).2 0 "m1" rfl)⟩

theorem cached_all_lookup (c : Cache) :
    ∀ mints : List String, (∀ m ∈ mints, (mapGet c m).isSome) →
      ((mints.map (fun m => mapGet c m)).filterMap id).length = mints.length ∧
      ∀ j m, mints.get? j = some m →
        ((mints.map (fun m => mapGet c m)).filterMap id).get? j = mapGet c m := by
  intro mints
  induction mints with
  | nil => intro _; exact ⟨rfl, fun j m h => by cases h⟩
  | cons m t ih =>
    intro hall
    have hm : (mapGet c m).isSome := hall m (List.mem_cons_self _ _)
    rcases Option.isSome_iff_exists.mp hm with ⟨v, hv⟩
    have iht := ih (fun x hx => hall x (List.mem_cons_of_mem _ hx))
    constructor
    · simp only [List.map_cons, hv, List.filterMap_cons, id, List.length_cons]
      exact congrArg Nat.succ iht.1
    · intro j x hj
      cases j with
      | zero =>
        simp only [List.get?_cons_zero, Option.some.injEq] at hj
        subst hj
        simp [hv, List.filterMap_cons]
      | succ j' =>
        simp only [List.get?_cons_succ] at hj
        simp only [List.map_cons, hv, List.filterMap_cons, id, List.get?_cons_succ]
        exact iht.2 j' x hj

theorem filterMap_id_none_lt :
    ∀ l : List (Option TokenInfo), none ∈ l → (l.filterMap id).length < l.length := by
  intro l
  induction l with
  | nil => intro h; cases h
  | cons x t ih =>
    intro hmem
    rcases List.mem_cons.mp hmem with heq | hmem'
    · subst heq
      simp only [List.filterMap_cons, id, List.length_cons]
      exact Nat.lt_succ_of_le (List.length_filterMap_le _ _)
    · cases x with
      | none =>
        simp only [List.filterMap_cons, id, List.length_cons]
        exact Nat.lt_succ_of_le (List.length_filterMap_le _ _)
      | some v =>
        simp only [List.filterMap_cons, id, List.length_cons]
        exact Nat.succ_lt_succ (ih hmem')

/-- C3 counterexample: three requested mints of which `m1` and `m2` are
cached and `m3` is not; the upstream `getAssetBatch` request issued by
`getAssetInfo`/`fetchAssetInfoDirect` carries the FULL three-element id list,
not only the uncached `m3`. -/
theorem c3_counterexample :
    (getAssetInfo
        (mapSet (mapSet [] "m1" { symbol := "AAA", image := none, expiry := some 300000 })
          "m2" { symbol := "BBB", image := none, expiry := some 300000 })
        0 300000
        (some [some { id := some "m3",
                      content := some { symbol := some "CCC", image := none } }])
        ["m1", "m2", "m3"]).2.2 = some ["m1", "m2", "m3"] ∧
    some ["m1", "m2", "m3"] ≠ some ["m3"] := by
  exact ⟨by decide, by decide⟩

/-- C3 amended: when every requested id is cached, the cached entries are
returned in request order with no upstream call; when at least one id is
uncached, the upstream call is issued with the FULL requested id list (not
only the uncached subset), the result still has one entry per requested id in
request order (drawn from the post-update cache on a successful response,
all placeholders on a failed one). -/
theorem c3_read_through (c : Cache) (now ttl : ℕ)
    (response : Option (List (Option RawAsset))) (mints : List String) :
    ((∀ m ∈ mints, (mapGet c m).isSome) →
      (getAssetInfo c now ttl response mints).2.2 = none ∧
      (getAssetInfo c now ttl response mints).2.1.length = mints.length ∧
      (∀ j m, mints.get? j = some m →
        (getAssetInfo c now ttl response mints).2.1.get? j = mapGet c m)) ∧
    ((∃ m ∈ mints, mapGet c m = none) →
      (getAssetInfo c now ttl response mints).2.2 = some mints ∧
      (getAssetInfo c now ttl response mints).2.1.length = mints.length ∧
      (∀ assets, response = some assets →
        ∀ j m, mints.get? j = some m →
          (getAssetInfo c now ttl response mints).2.1.get? j =
            some ((mapGet (getAssetInfo c now ttl response mints).1 m).getD
              placeholderInfo)) ∧
      (response = none →
        ∀ e ∈ (getAssetInfo c now ttl response mints).2.1, e = placeholderInfo)) := by
  constructor
  · intro hall
    have hc := cached_all_lookup c mints hall
    have hcond : ((mints.map (fun m => mapGet c m)).filterMap id).length =
        mints.length := hc.1
    simp only [getAssetInfo]
    rw [if_pos hcond]
    exact ⟨rfl, hcond, hc.2⟩
  · intro ⟨m, hmem, hnone⟩
    have hnonelem : (none : Option TokenInfo) ∈ mints.map (fun m => mapGet c m) :=
      List.mem_map.mpr ⟨m, hmem, hnone⟩
    have hlt := filterMap_id_none_lt _ hnonelem
    have hlen : ((mints.map (fun m => mapGet c m)).filterMap id).length ≠
        mints.length := by
      have hlt' := hlt
      rw [List.length_map] at hlt'
      exact Nat.ne_of_lt hlt'
    have hfetch := fun hne => c7_fetchAssetBatch c now ttl response mints hne
    have hne : mints ≠ [] := fun h => by subst h; cases hmem
    simp only [getAssetInfo]
    rw [if_neg hlen]
    refine ⟨rfl, (hfetch hne).1, fun assets ha j x hj => ?_, fun hnoneresp e he => ?_⟩
    · exact ((hfetch hne).2.2 assets ha).2 j x hj
    · exact (hfetch hne).2.1 hnoneresp e he

/-- Witness for C3 (amended) at the 3-requested / 2-cached scenario: the
request body carries all three ids and the result has three entries. -/
theorem c3_read_through_witness :
    (getAssetInfo
        (mapSet (mapSet [] "m1" { symbol := "AAA", image := none, expiry := some 300000 })
          "m2" { symbol := "BBB", image := none, expiry := some 300000 })
        0 300000
        (some [some { id := some "m3",
                      content := some { symbol := some "CCC", image := none } }])
        ["m1", "m2", "m3"]).2.2 = some ["m1", "m2", "m3"] ∧
    (getAssetInfo
        (mapSet (mapSet [] "m1" { symbol := "AAA", image := none, expiry := some 300000 })
          "m2" { symbol := "BBB", image := none, expiry := some 300000 })
        0 300000
        (some [some { id := some "m3",
                      content := some { symbol := some "CCC", image := none } }])
        ["m1", "m2", "m3"]).2.1.length = ["m1", "m2", "m3"].length :=
  ⟨((c3_read_through _ 0 300000 _ ["m1", "m2", "m3"]).2
      ⟨"m3", by decide, by decide⟩).1,
    ((c3_read_through _ 0 300000 _ ["m1", "m2", "m3"]).2
      ⟨"m3", by decide, by decide⟩).2.1⟩

theorem digit_ne_dash {c : Char} (h : c.isDigit = true) : c ≠ '-' := by
  intro heq
  subst heq
  exact absurd h (by decide)

theorem digit_ne_plus {c : Char} (h : c.isDigit = true) : c ≠ '+' := by
  intro heq
  subst heq
  exact absurd h (by decide)

theorem digits_no_dot (l : List Char) (h : l.all Char.isDigit = true) :
    listHasSub l ['.'] = false := by
  induction l with
  | nil => rfl
  | cons c t ih =>
    have hc : c.isDigit = true := List.all_eq_true.mp h c (List.mem_cons_self _ _)
    have ht : t.all Char.isDigit = true :=
      List.all_eq_true.mpr fun x hx => List.all_eq_true.mp h x (List.mem_cons_of_mem _ hx)
    have hdot : ('.' == c) = false := by
      have : c ≠ '.' := by
        intro heq
        subst heq
        exact absurd hc (by decide)
      simp [beq_eq_false_iff_ne, Ne.symm this]
    simp [listHasSub, List.isPrefixOf, hdot, ih ht]

theorem jsBigIntParse_digits (l : List Char) (hne : l ≠ [])
    (h : l.all Char.isDigit = true) :
    jsBigIntParse ⟨l⟩ = some ((natOfDigits l : Int)) := by
  obtain _ | ⟨c, cs⟩ := l
  · exact absurd rfl hne
  · have hc : c.isDigit = true := List.all_eq_true.mp h c (List.mem_cons_self _ _)
    show jsBigIntParse ⟨c :: cs⟩ = _
    have htl : (String.mk (c :: cs)).toList = c :: cs := rfl
    simp only [jsBigIntParse, htl]
    rw [if_neg (digit_ne_dash hc), if_neg (digit_ne_plus hc), if_pos h]

/-- C5 counterexample: the claimed rendering of raw amount 1500000000 at
precision 9 is "1.50 tokens", but `formatTokenAmount` renders the ≥1, <1000
bucket through `toLocaleString` with `minimumFractionDigits: 0`, which strips
the trailing zero: the code produces "1.5 tokens". -/
theorem c5_format_counterexample :
    formatTokenAmount (some "1500000000") (JsDec.n 9) = "1.5 tokens" ∧
      formatTokenAmount (some "1500000000") (JsDec.n 9) ≠ "1.50 tokens" := by
  exact ⟨by decide, by decide⟩

theorem natLog2F_spec (fuel : ℕ) :
    ∀ n : ℕ, 1 ≤ n → n ≤ fuel →
      2 ^ natLog2F fuel n ≤ n ∧ n < 2 ^ (natLog2F fuel n + 1) := by
  induction fuel with
  | zero => intro n h1 h2; omega
  | succ f ih =>
    intro n h1 h2
    by_cases hle : n ≤ 1
    · have hn : n = 1 := by omega
      subst hn
      refine ⟨by simp [natLog2F], by simp [natLog2F]⟩
    · have hstep : natLog2F (f + 1) n = natLog2F f (n / 2) + 1 := by
        simp [natLog2F, hle]
      obtain ⟨hr1, hr2⟩ := ih (n / 2) (by omega) (by omega)
      rw [hstep]
      simp only [pow_succ] at hr2 ⊢
      set a := 2 ^ natLog2F f (n / 2) with ha
      omega

theorem natLog2_ge {k n : ℕ} (h1 : 1 ≤ n) (h : 2 ^ k ≤ n) : k ≤ natLog2 n := by
  have hs : 2 ^ natLog2 n ≤ n ∧ n < 2 ^ (natLog2 n + 1) := natLog2F_spec n n h1 le_rfl
  by_contra hlt
  push_neg at hlt
  have hmono : 2 ^ (natLog2 n + 1) ≤ 2 ^ k :=
    Nat.pow_le_pow_right (by norm_num) (by omega)
  have := hs.2
  omega

theorem jsPow10_big (p : ℕ) (hp : 309 ≤ p) : jsPow10Z (p : Int) = JsNum.posInf := by
  have hpos : (0 : Int) < (10 : Int) ^ p := by positivity
  unfold jsPow10Z
  rw [if_pos (Int.natCast_nonneg p), Int.toNat_natCast]
  unfold roundToDouble
  rw [if_neg (ne_of_gt hpos), if_neg (not_lt.mpr (le_of_lt hpos))]
  have h10 : ((10 : Int) ^ p).natAbs = 10 ^ p := by simp [Int.natAbs_pow]
  rw [h10]
  have hlog : 1025 ≤ natLog2 (10 ^ p) := by
    apply natLog2_ge (Nat.one_le_pow _ _ (by norm_num))
    calc (2 : ℕ) ^ 1025 ≤ 10 ^ 309 := by norm_num
      _ ≤ 10 ^ p := Nat.pow_le_pow_right (by norm_num) hp
  unfold roundPosToDouble
  dsimp only
  rw [show natLog2 1 = 0 from rfl]
  split <;> rw [if_pos (by omega)]

/-- C5 amended: `formatTokenAmount` renders the K/M/B bucket scheme applied
to the IEEE-754 double evaluation of `rawAmount / (10 ** precision)`, not to
its exact rational value.  Concretely: "1500000000" at precision 9 gives
"1.5 tokens" (not "1.50 tokens": the ≥1, <1000 bucket strips trailing
zeros); "2500000000000" at 9 gives the K bucket "2.50K tokens";
"1005000000000" at 9 gives "1.00K tokens" because the double `1005 / 1000`
is slightly below 1.005 and `toFixed(2)` rounds it down; and for every
nonempty all-digit raw amount with precision ≥ 309, `10 ** precision`
overflows to `Infinity`, `BigInt` throws, and the result is "N/A". -/
theorem c5_format_double :
    (∀ (s : String) (p : ℕ), s ≠ "" → s.toList.all Char.isDigit = true →
      309 ≤ p → formatTokenAmount (some s) (JsDec.n (p : ℕ)) = "N/A") ∧
    formatTokenAmount (some "1500000000") (JsDec.n 9) = "1.5 tokens" ∧
    formatTokenAmount (some "2500000000000") (JsDec.n 9) = "2.50K tokens" ∧
    formatTokenAmount (some "1005000000000") (JsDec.n 9) = "1.00K tokens" := by
  refine ⟨?_, by decide, by decide, by decide⟩
  intro s p hs hdig hp
  obtain ⟨data⟩ := s
  have hl : data ≠ [] := by
    intro h
    exact hs (by rw [h])
  have hne : ¬(String.mk data = "") := fun h => hl (congrArg String.data h)
  have hdig' : data.all Char.isDigit = true := hdig
  have hdot : jsIncludes ⟨data⟩ "." = false := by
    simp only [jsIncludes]
    exact digits_no_dot data hdig'
  simp only [formatTokenAmount]
  rw [if_neg hne, hdot]
  simp only [Bool.false_eq_true, if_false]
  rw [show normalizeDecimals (JsDec.n (p : ℕ)) = ((p : ℕ) : Int) from rfl]
  rw [jsBigIntParse_digits data hl hdig']
  rw [jsPow10_big p hp]
  rfl

/-- Witness for C5 (amended): precision 309 on a digit string yields "N/A". -/
theorem c5_format_double_witness :
    formatTokenAmount (some "5") (JsDec.n ((309 : ℕ) : Int)) = "N/A" :=
  c5_format_double.1 "5" 309 (by decide) (by decide) (by decide)

/-- C8: a candidate event whose token symbol is not a reference-asset symbol,
has length at least two, and is not on the token blacklist is admitted
immediately by `shouldShowTransaction`, whatever its wallet label, transaction
type or (missing) mint address.  The reference-asset aliases are themselves
blacklist entries, so non-blacklisted already excludes them; the explicit
hypotheses mirror the claim. -/
theorem c8_short_circuit (td : TransactionData) (t : String)
    (htok : td.token = some t)
    (href : t ≠ "SOL" ∧ t ≠ "WSOL")
    (hlen : 2 ≤ t.length)
    (hbl : isTokenBlacklisted (some t) = false) :
    shouldShowTransaction td = true := by
  have hne : t ≠ "" := by
    intro h
    subst h
    exact absurd hbl (by decide)
  simp only [shouldShowTransaction, htok]
  have h1 : (t != "") = true := bne_iff_ne.mpr hne
  have h2 : (t != "SOL") = true := bne_iff_ne.mpr href.1
  have h3 : (t != "WSOL") = true := bne_iff_ne.mpr href.2
  simp [h1, h2, h3, hlen, hbl]

/-- Witness for C8 at a concrete candidate event: token "BONK", generic
wallet label, blacklisted transaction type and missing mint address. -/
theorem c8_short_circuit_witness :
    shouldShowTransaction
      { signature := "sig", wallet := some "Transaction Detected",
        token := some "BONK", amount := some "🟢 1.000 SOL",
        buySell := some "BUY", solAmount := some ⟨1, 1⟩,
        type := some "account_change", mintAddress := none } = true :=
  c8_short_circuit _ "BONK" rfl (by decide) (by decide) (by decide)

end Onectra
